import Mathlib

/-!
Verification of the optimistic V3 relay server
(`crates/rbuilder/src/mev_boost/optimistic_v3.rs`).

The embedding models:
* the LRU bid cache (`schnellru::LruMap` with a `ByLength` limiter) as an
  association list ordered from most- to least-recently-used, with
  `lruInsert` (store/refresh + evict down to capacity) and `lruGet`
  (lookup + promote to most-recently-used);
* the request handler `Handler::get_payload_v3` /
  `Handler::get_payload_v3_metered` as a pure function from the request
  (content type, body bytes) and the pre-state (cache, metrics) to the
  HTTP result and post-state; external library calls (serde_json / ssz
  parsing and serialization, BLS signature verification, the system
  clock) are supplied through an `Env` record of functions;
* the prometheus counters and histograms as natural-number counters
  (histograms count observations);
* the bid-ingestion loop `maintain_block_cache` as a fold over a list of
  broadcast-stream events (`Ok(block)`, `Lagged(n)`, stream end).

Fixed-width byte values (32-byte hashes, 48-byte BLS keys, signatures)
are modelled as `Nat`: the server only ever compares them for equality.
-/

set_option maxHeartbeats 1000000

namespace OptimisticV3

/-- 32-byte value (`alloy_primitives::B256`), used for block hashes and the
signing domain; only equality matters to the server. -/
abbrev B256 := Nat

/-- 48-byte BLS public key (`alloy_rpc_types_beacon::BlsPublicKey`). -/
abbrev BlsPublicKey := Nat

/-- The part of `AlloySubmitBlockRequest`'s bid trace the server reads. -/
structure BidTrace where
  block_hash : B256
  deriving DecidableEq, Repr

/-- A submitted block bid (`Arc<AlloySubmitBlockRequest>`).  The server
treats the payload as opaque: it only reads `bid_trace().block_hash` and
hands the whole value to the serializers. -/
structure SubmitBlockRequest where
  bid_trace : BidTrace
  payload : Nat
  deriving DecidableEq, Repr

/-- The signed message of a `SignedGetPayloadV3` request. -/
structure GetPayloadV3Message where
  request_ts : Nat
  relay_public_key : BlsPublicKey
  block_hash : B256
  deriving DecidableEq, Repr

/-- `rbuilder_primitives::mev_boost::SignedGetPayloadV3`. -/
structure SignedGetPayloadV3 where
  message : GetPayloadV3Message
  signature : Nat
  deriving DecidableEq, Repr

/-- The default number of blocks to keep in cache
(`OPTIMISTIC_V3_CACHE_SIZE_DEFAULT`). -/
def OPTIMISTIC_V3_CACHE_SIZE_DEFAULT : Nat := 1000

/-- The LRU bid cache (`LruMap<B256, Arc<AlloySubmitBlockRequest>>`),
as a list of entries ordered from most-recently-used (head) to
least-recently-used (last). -/
abbrev LruCache := List (B256 × SubmitBlockRequest)

/-- The keys of the cache, in recency order (most recent first). -/
def cacheKeys (c : LruCache) : List B256 := c.map Prod.fst

/-- `LruMap::insert` with a `ByLength` limiter of capacity `n`: stores or
refreshes the entry for `k` at the most-recently-used position (removing
any previous entry for `k`), then evicts least-recently-used entries
until at most `n` remain. -/
def lruInsert (n : Nat) (k : B256) (v : SubmitBlockRequest) (c : LruCache) : LruCache :=
  ((k, v) :: c.filter (fun q => q.1 != k)).take n

/-- `LruMap::get`: on a hit, returns the value and promotes the entry to
most-recently-used; on a miss, returns `none` and leaves the cache
unchanged. -/
def lruGet (k : B256) (c : LruCache) : Option SubmitBlockRequest × LruCache :=
  match c.find? (fun q => q.1 == k) with
  | none => (none, c)
  | some q => (some q.2, (k, q.2) :: c.filter (fun q => q.1 != k))

/-- Insert a sequence of (hash, bid) pairs in order (first element first). -/
def insertAll (n : Nat) (kvs : List (B256 × SubmitBlockRequest)) (c : LruCache) : LruCache :=
  kvs.foldl (fun acc kv => lruInsert n kv.1 kv.2 acc) c

/-- The prometheus metrics of the relay server.  Counters count `inc()`
calls; for the two histograms we count `observe()` calls. -/
structure Metrics where
  requests_total : Nat
  relay_request_latency_obs : Nat
  response_latency_obs : Nat
  bad_requests_total : Nat
  unknown_pubkey_total : Nat
  invalid_signature_total : Nat
  block_not_found_total : Nat
  deriving DecidableEq, Repr

/-- All metrics at zero. -/
def Metrics.zero : Metrics := ⟨0, 0, 0, 0, 0, 0, 0⟩

/-- HTTP status codes the handler can produce on the error path
(`warp::http::StatusCode`); a successful reply carries status 200. -/
inductive StatusCode where
  | BAD_REQUEST
  | UNAUTHORIZED
  | NOT_FOUND
  | INTERNAL_SERVER_ERROR
  deriving DecidableEq, Repr

/-- A successful (HTTP 200) reply: the serialized block and the value of
the `Content-Type` header. -/
structure Response where
  body : List Nat
  content_type : String
  deriving DecidableEq, Repr

/-- External collaborators of the handler: the serde_json / ssz codecs,
the BLS signature verifier, and the system clock.  `now_after_ts ts`
tells whether `SystemTime::now().duration_since(UNIX_EPOCH + ts ms)`
returns `Ok` (i.e. the request timestamp is not in the future). -/
structure Env where
  parse_json : List Nat → Option SignedGetPayloadV3
  parse_ssz : List Nat → Option SignedGetPayloadV3
  verify_signed_relay_request : SignedGetPayloadV3 → B256 → Bool
  to_json_vec : SubmitBlockRequest → Option (List Nat)
  as_ssz_bytes : SubmitBlockRequest → List Nat
  now_after_ts : Nat → Bool

/-- The handler state (`struct Handler`). -/
structure Handler where
  domain : B256
  relay_pubkeys : List BlsPublicKey
  blocks : LruCache

/-- The body of `Handler::get_payload_v3` after the content-type gate and
decode succeeded: relay-latency observation, pubkey authorization,
signature verification, cache lookup, and encoding of the reply. -/
def handle_request (env : Env) (h : Handler) (is_json : Bool)
    (request : SignedGetPayloadV3) (m : Metrics) :
    Except StatusCode Response × LruCache × Metrics :=
  let m := if env.now_after_ts request.message.request_ts then
    { m with relay_request_latency_obs := m.relay_request_latency_obs + 1 }
  else m
  let relay_pubkey := request.message.relay_public_key
  let block_hash := request.message.block_hash
  if relay_pubkey ∈ h.relay_pubkeys then
    if env.verify_signed_relay_request request h.domain then
      match lruGet block_hash h.blocks with
      | (some block, blocks) =>
        if is_json then
          match env.to_json_vec block with
          | some json => (.ok ⟨json, "application/json"⟩, blocks, m)
          | none => (.error .INTERNAL_SERVER_ERROR, blocks, m)
        else
          (.ok ⟨env.as_ssz_bytes block, "application/octet-stream"⟩, blocks, m)
      | (none, blocks) =>
        (.error .NOT_FOUND, blocks,
          { m with block_not_found_total := m.block_not_found_total + 1 })
    else
      (.error .UNAUTHORIZED, h.blocks,
        { m with invalid_signature_total := m.invalid_signature_total + 1 })
  else
    (.error .UNAUTHORIZED, h.blocks,
      { m with unknown_pubkey_total := m.unknown_pubkey_total + 1 })

/-- `Handler::get_payload_v3`: the content-type gate and body decode,
then `handle_request`. -/
def get_payload_v3 (env : Env) (h : Handler) (content_type : String)
    (bytes : List Nat) (m : Metrics) :
    Except StatusCode Response × LruCache × Metrics :=
  if content_type = "application/json" then
    match env.parse_json bytes with
    | some request => handle_request env h true request m
    | none => (.error .BAD_REQUEST, h.blocks,
        { m with bad_requests_total := m.bad_requests_total + 1 })
  else if content_type = "application/octet-stream" then
    match env.parse_ssz bytes with
    | some request => handle_request env h false request m
    | none => (.error .BAD_REQUEST, h.blocks,
        { m with bad_requests_total := m.bad_requests_total + 1 })
  else
    (.error .BAD_REQUEST, h.blocks,
      { m with bad_requests_total := m.bad_requests_total + 1 })

/-- `Handler::get_payload_v3_metered`: increments `REQUESTS_TOTAL`, runs
`get_payload_v3`, and observes the elapsed wall-clock time into
`RESPONSE_LATENCY`, on every path. -/
def get_payload_v3_metered (env : Env) (h : Handler) (content_type : String)
    (bytes : List Nat) (m : Metrics) :
    Except StatusCode Response × LruCache × Metrics :=
  let m1 := { m with requests_total := m.requests_total + 1 }
  let r := get_payload_v3 env h content_type bytes m1
  (r.1, r.2.1,
    { r.2.2 with response_latency_obs := r.2.2.response_latency_obs + 1 })

/-- The state built by `spawn_server`: the cache (created empty) together
with the capacity its `ByLength` limiter was constructed with, and the
request handler.  `spawn_server`'s parameters are the listen address, the
domain, the authorized relay pubkeys and the bid stream — it takes no
capacity argument. -/
structure ServerState where
  cache_capacity : Nat
  handler : Handler

/-- `spawn_server` (the state it constructs; the listen address and the
bid stream feed the I/O layers which are external to this model). -/
def spawn_server (domain : B256) (relay_pubkeys : List BlsPublicKey) : ServerState :=
  { cache_capacity := OPTIMISTIC_V3_CACHE_SIZE_DEFAULT
    handler := { domain := domain, relay_pubkeys := relay_pubkeys, blocks := [] } }

/-- One item received from the broadcast bid stream: a bid, a
`BroadcastStreamRecvError::Lagged(n)` notification, or `None`
(stream closed). -/
inductive BidStreamItem where
  | ok (block : SubmitBlockRequest)
  | lagged (lag : Nat)
  | closed
  deriving DecidableEq, Repr

/-- One iteration of the `maintain_block_cache` loop: a received bid is
inserted under its block hash; a lagged notification and a closed stream
are logged and the loop continues with the cache untouched.  Every match
arm continues the loop — the task never returns. -/
def maintain_step (n : Nat) (c : LruCache) (item : BidStreamItem) : LruCache :=
  match item with
  | .ok block => lruInsert n block.bid_trace.block_hash block c
  | .lagged _ => c
  | .closed => c

/-- `maintain_block_cache` run over a finite list of stream items. -/
def maintain_block_cache (n : Nat) (items : List BidStreamItem) (c : LruCache) : LruCache :=
  items.foldl (maintain_step n) c

/-! ### LRU cache lemmas -/

theorem length_lruInsert_le (n : Nat) (k : B256) (v : SubmitBlockRequest)
    (c : LruCache) : (lruInsert n k v c).length ≤ n := by
  simp [lruInsert, List.length_take]

theorem length_insertAll_le (n : Nat) (kvs : List (B256 × SubmitBlockRequest)) :
    ∀ c : LruCache, c.length ≤ n → (insertAll n kvs c).length ≤ n := by
  induction kvs with
  | nil => intro c hc; simpa [insertAll] using hc
  | cons kv rest ih =>
    intro c hc
    simp only [insertAll, List.foldl_cons] at ih ⊢
    exact ih _ (length_lruInsert_le ..)

theorem cacheKeys_filter (m : B256) (c : LruCache) :
    cacheKeys (c.filter (fun q => q.1 != m)) = (cacheKeys c).filter (fun x => x != m) := by
  induction c with
  | nil => rfl
  | cons a t ih =>
    simp only [cacheKeys, List.map_cons, List.filter_cons] at ih ⊢
    cases h : a.1 != m <;> simp [h, ih]

theorem cacheKeys_take (n : Nat) (c : LruCache) :
    cacheKeys (c.take n) = (cacheKeys c).take n := by
  simp [cacheKeys, List.map_take]

theorem cacheKeys_cons (k : B256) (v : SubmitBlockRequest) (c : LruCache) :
    cacheKeys ((k, v) :: c) = k :: cacheKeys c := rfl

theorem cacheKeys_lruInsert (n : Nat) (k : B256) (v : SubmitBlockRequest)
    (c : LruCache) :
    cacheKeys (lruInsert n k v c) = (k :: (cacheKeys c).filter (fun x => x != k)).take n := by
  simp only [lruInsert, cacheKeys_take, cacheKeys_cons, cacheKeys_filter]

theorem nodup_cacheKeys_lruInsert (n : Nat) (k : B256) (v : SubmitBlockRequest)
    (c : LruCache) (h : (cacheKeys c).Nodup) :
    (cacheKeys (lruInsert n k v c)).Nodup := by
  rw [cacheKeys_lruInsert]
  apply List.Nodup.sublist (List.take_sublist ..)
  refine List.nodup_cons.mpr ⟨?_, h.filter _⟩
  intro hk
  have := List.of_mem_filter hk
  simp at this

theorem take_append_take {α : Type} (a l : List α) :
    ∀ n m : Nat, n ≤ m → (a ++ l.take m).take n = (a ++ l).take n := by
  induction a with
  | nil =>
    intro n m h
    simp [List.take_take, Nat.min_eq_left h]
  | cons x a ih =>
    intro n m h
    cases n with
    | zero => simp
    | succ p =>
      simp only [List.cons_append, List.take_succ_cons]
      rw [ih p m (Nat.le_of_succ_le h)]

theorem cacheKeys_insertAll (n : Nat) :
    ∀ (kvs : List (B256 × SubmitBlockRequest)) (c : LruCache),
      (kvs.map Prod.fst).Nodup → (∀ k ∈ kvs.map Prod.fst, k ∉ cacheKeys c) →
      c.length ≤ n →
      cacheKeys (insertAll n kvs c) = ((kvs.map Prod.fst).reverse ++ cacheKeys c).take n := by
  intro kvs
  induction kvs with
  | nil =>
    intro c _ _ hc
    simp only [insertAll, List.foldl_nil, List.map_nil, List.reverse_nil,
      List.nil_append]
    rw [List.take_of_length_le]
    simpa [cacheKeys] using hc
  | cons kv rest ih =>
    intro c hnd hfresh hc
    have hfilter : c.filter (fun q => q.1 != kv.1) = c := by
      apply List.filter_eq_self.mpr
      intro a ha
      have hmem : a.1 ∈ cacheKeys c := List.mem_map_of_mem _ ha
      have hne : a.1 ≠ kv.1 := by
        intro he
        exact hfresh kv.1 (by simp) (he ▸ hmem)
      simpa using hne
    have hins : lruInsert n kv.1 kv.2 c = ((kv.1, kv.2) :: c).take n := by
      simp [lruInsert, hfilter]
    have hstep : insertAll n (kv :: rest) c
        = insertAll n rest (((kv.1, kv.2) :: c).take n) := by
      simp only [insertAll, List.foldl_cons, hins]
    have hkeys : cacheKeys (((kv.1, kv.2) :: c).take n)
        = (kv.1 :: cacheKeys c).take n := by
      rw [cacheKeys_take]; rfl
    have hndrest : (rest.map Prod.fst).Nodup := (List.nodup_cons.mp hnd).2
    have hkfresh : kv.1 ∉ rest.map Prod.fst := (List.nodup_cons.mp hnd).1
    have hfresh' : ∀ k ∈ rest.map Prod.fst, k ∉ cacheKeys (((kv.1, kv.2) :: c).take n) := by
      intro k hk hmem
      rw [hkeys] at hmem
      have hmem' : k ∈ kv.1 :: cacheKeys c := List.take_subset _ _ hmem
      rcases List.mem_cons.mp hmem' with he | hm
      · exact hkfresh (he ▸ hk)
      · exact hfresh k (List.mem_cons_of_mem _ hk) hm
    have hlen : (((kv.1, kv.2) :: c).take n).length ≤ n := by
      simp [List.length_take]
    rw [hstep, ih _ hndrest hfresh' hlen, hkeys,
      take_append_take _ _ n n le_rfl]
    simp

theorem cacheKeys_nil : cacheKeys ([] : LruCache) = [] := rfl

theorem length_filter_ne_of_nodup_mem (k : B256) :
    ∀ l : List B256, l.Nodup → k ∈ l →
      (l.filter (fun x => x != k)).length = l.length - 1 := by
  intro l
  induction l with
  | nil => intro _ h; cases h
  | cons a t ih =>
    intro hnd hmem
    by_cases ha : a = k
    · subst ha
      have hnotin : a ∉ t := (List.nodup_cons.mp hnd).1
      have hall : t.filter (fun x => x != a) = t := by
        apply List.filter_eq_self.mpr
        intro x hx
        have : x ≠ a := fun he => hnotin (he ▸ hx)
        simpa using this
      simp [List.filter_cons, hall]
    · have hkt : k ∈ t := by
        rcases List.mem_cons.mp hmem with he | ht
        · exact absurd he.symm ha
        · exact ht
      have hpos : 0 < t.length := List.length_pos_of_mem hkt
      have := ih (List.nodup_cons.mp hnd).2 hkt
      simp only [List.filter_cons, List.length_cons]
      have hane : (a != k) = true := by simpa using ha
      rw [hane]
      simp only [if_true, List.length_cons]
      omega

theorem length_lruInsert_of_mem (n : Nat) (k : B256) (v : SubmitBlockRequest)
    (c : LruCache) (hnd : (cacheKeys c).Nodup) (hk : k ∈ cacheKeys c)
    (hc : c.length ≤ n) : (lruInsert n k v c).length = c.length := by
  have hlenf : (c.filter (fun q => q.1 != k)).length = c.length - 1 := by
    have h1 : (c.filter (fun q => q.1 != k)).length
        = (cacheKeys (c.filter (fun q => q.1 != k))).length := by
      simp [cacheKeys]
    have h2 : (cacheKeys c).length = c.length := by simp [cacheKeys]
    rw [h1, cacheKeys_filter, length_filter_ne_of_nodup_mem k _ hnd hk, h2]
  have hpos : 0 < c.length := by
    have : 0 < (cacheKeys c).length := List.length_pos_of_mem hk
    simpa [cacheKeys] using this
  simp only [lruInsert, List.length_take, List.length_cons, hlenf]
  omega

/-- C1: cache size never exceeds the capacity `n` for any sequence of
inserts; inserting `n + 1` distinct hashes into the empty cache leaves
the first-inserted hash absent and all later hashes present (single LRU
eviction per overflowing insert); re-inserting a hash already present
overwrites its entry without changing the number of entries. -/
theorem C1_lru_capacity_and_eviction :
    (∀ (n : Nat) (kvs : List (B256 × SubmitBlockRequest)),
      (insertAll n kvs []).length ≤ n)
    ∧ (∀ (n : Nat) (kv₀ : B256 × SubmitBlockRequest)
        (rest : List (B256 × SubmitBlockRequest)),
        ((kv₀ :: rest).map Prod.fst).Nodup → (kv₀ :: rest).length = n + 1 →
          kv₀.1 ∉ cacheKeys (insertAll n (kv₀ :: rest) [])
          ∧ ∀ kv ∈ rest, kv.1 ∈ cacheKeys (insertAll n (kv₀ :: rest) []))
    ∧ (∀ (n : Nat) (k : B256) (v : SubmitBlockRequest) (c : LruCache),
        (cacheKeys c).Nodup → k ∈ cacheKeys c → c.length ≤ n →
          (lruInsert n k v c).length = c.length) := by
  refine ⟨?_, ?_, ?_⟩
  · intro n kvs
    exact length_insertAll_le n kvs [] (by simp)
  · intro n kv₀ rest hnd hlen
    have hkeys := cacheKeys_insertAll n (kv₀ :: rest) []
      hnd (by simp [cacheKeys]) (by simp)
    rw [cacheKeys_nil, List.append_nil, List.map_cons, List.reverse_cons] at hkeys
    have hlrest : ((rest.map Prod.fst).reverse).length = n := by
      simp only [List.length_cons] at hlen
      simp only [List.length_reverse, List.length_map]
      omega
    have htake : ((rest.map Prod.fst).reverse ++ [kv₀.1]).take n
        = (rest.map Prod.fst).reverse := by
      rw [List.take_append_eq_append_take, hlrest, Nat.sub_self, List.take_zero,
        List.append_nil, List.take_of_length_le hlrest.le]
    rw [htake] at hkeys
    rw [List.map_cons] at hnd
    constructor
    · rw [hkeys, List.mem_reverse]
      exact (List.nodup_cons.mp hnd).1
    · intro kv hkv
      rw [hkeys, List.mem_reverse]
      exact List.mem_map_of_mem _ hkv
  · intro n k v c hnd hk hc
    exact length_lruInsert_of_mem n k v c hnd hk hc

/-- Witness for C1: capacity 2, inserting hashes 10, 20, 30 leaves
\x7b20, 30\x7d with 10 evicted; re-inserting hash 20 keeps two entries. -/
theorem C1_lru_capacity_and_eviction_witness :
    (insertAll 2 [(10, ⟨⟨10⟩, 0⟩), (20, ⟨⟨20⟩, 0⟩), (30, ⟨⟨30⟩, 0⟩)] []).length ≤ 2
    ∧ (10 ∉ cacheKeys (insertAll 2 [(10, ⟨⟨10⟩, 0⟩), (20, ⟨⟨20⟩, 0⟩), (30, ⟨⟨30⟩, 0⟩)] [])
        ∧ ∀ kv ∈ [((20 : B256), (⟨⟨20⟩, 0⟩ : SubmitBlockRequest)), (30, ⟨⟨30⟩, 0⟩)],
          kv.1 ∈ cacheKeys (insertAll 2 [(10, ⟨⟨10⟩, 0⟩), (20, ⟨⟨20⟩, 0⟩), (30, ⟨⟨30⟩, 0⟩)] []))
    ∧ (lruInsert 2 20 ⟨⟨20⟩, 1⟩ [(30, ⟨⟨30⟩, 0⟩), (20, ⟨⟨20⟩, 0⟩)]).length
        = ([((30 : B256), (⟨⟨30⟩, 0⟩ : SubmitBlockRequest)), (20, ⟨⟨20⟩, 0⟩)]).length :=
  ⟨C1_lru_capacity_and_eviction.1 2 _,
   C1_lru_capacity_and_eviction.2.1 2 (10, ⟨⟨10⟩, 0⟩) [(20, ⟨⟨20⟩, 0⟩), (30, ⟨⟨30⟩, 0⟩)]
     (by decide) (by decide),
   C1_lru_capacity_and_eviction.2.2 2 20 ⟨⟨20⟩, 1⟩ [(30, ⟨⟨30⟩, 0⟩), (20, ⟨⟨20⟩, 0⟩)]
     (by decide) (by decide) (by decide)⟩

/-! ### Recency order: `get` promotes to most-recently-used (C6) -/

theorem sublist_take_of_nodup (k k' : B256) (hne : k' ≠ k) :
    ∀ (l : List B256) (n : Nat), l.Nodup → List.Sublist [k, k'] l →
      k' ∈ l.take n → List.Sublist [k, k'] (l.take n) := by
  intro l
  induction l with
  | nil =>
    intro n _ _ hk'
    simp at hk'
  | cons a t ih =>
    intro n hnd hsub hk'
    cases n with
    | zero => simp at hk'
    | succ p =>
      rw [List.take_succ_cons] at hk' ⊢
      cases hsub with
      | cons₂ _ h =>
        have hk't : k' ∈ t.take p := by
          rcases List.mem_cons.mp hk' with he | hm
          · exact absurd he hne
          · exact hm
        exact (List.singleton_sublist.mpr hk't).cons₂ k
      | cons _ h =>
        have hk'int : k' ∈ t := h.mem (by simp)
        have hk't : k' ∈ t.take p := by
          rcases List.mem_cons.mp hk' with he | hm
          · exact absurd (he ▸ hk'int) (List.nodup_cons.mp hnd).1
          · exact hm
        exact (ih p (List.nodup_cons.mp hnd).2 h hk't).cons a

theorem sublist_cacheKeys_lruInsert (n : Nat) (k k' m : B256)
    (v : SubmitBlockRequest) (c : LruCache)
    (hnd : (cacheKeys c).Nodup) (hne : k' ≠ k) (hmk : m ≠ k) (hmk' : m ≠ k')
    (hsub : k' ∈ cacheKeys c → List.Sublist [k, k'] (cacheKeys c))
    (hmem : k' ∈ cacheKeys (lruInsert n m v c)) :
    List.Sublist [k, k'] (cacheKeys (lruInsert n m v c)) := by
  rw [cacheKeys_lruInsert] at hmem ⊢
  have hk'filter : k' ∈ (cacheKeys c).filter (fun x => x != m) := by
    have hmem' : k' ∈ m :: (cacheKeys c).filter (fun x => x != m) :=
      List.take_subset _ _ hmem
    rcases List.mem_cons.mp hmem' with he | hm
    · exact absurd he.symm hmk'
    · exact hm
  have hk'c : k' ∈ cacheKeys c := List.mem_of_mem_filter hk'filter
  have hsub1 : List.Sublist [k, k'] ((cacheKeys c).filter (fun x => x != m)) := by
    have h1 := (hsub hk'c).filter (fun x => x != m)
    have h2 : ([k, k'].filter (fun x => x != m)) = [k, k'] := by
      have hk : (k != m) = true := by simpa using (Ne.symm hmk)
      have hk' : (k' != m) = true := by simpa using (Ne.symm hmk')
      simp [List.filter_cons, hk, hk']
    rwa [h2] at h1
  have hndcons : (m :: (cacheKeys c).filter (fun x => x != m)).Nodup := by
    refine List.nodup_cons.mpr ⟨?_, hnd.filter _⟩
    intro hm
    have := List.of_mem_filter hm
    simp at this
  exact sublist_take_of_nodup k k' hne _ n hndcons (hsub1.cons m) hmem

theorem insertAll_recency_invariant (n : Nat) (k k' : B256) (hne : k' ≠ k) :
    ∀ (ms : List (B256 × SubmitBlockRequest)) (c : LruCache),
      (∀ kv ∈ ms, kv.1 ≠ k ∧ kv.1 ≠ k') →
      (cacheKeys c).Nodup →
      (k' ∈ cacheKeys c → List.Sublist [k, k'] (cacheKeys c)) →
      (cacheKeys (insertAll n ms c)).Nodup ∧
        (k' ∈ cacheKeys (insertAll n ms c) →
          List.Sublist [k, k'] (cacheKeys (insertAll n ms c))) := by
  intro ms
  induction ms with
  | nil => intro c _ hnd hsub; exact ⟨hnd, hsub⟩
  | cons kv rest ih =>
    intro c hms hnd hsub
    have hkv := hms kv (by simp)
    simp only [insertAll, List.foldl_cons]
    have hnd' := nodup_cacheKeys_lruInsert n kv.1 kv.2 c hnd
    have hsub' := fun hm => sublist_cacheKeys_lruInsert n k k' kv.1 kv.2 c
      hnd hne hkv.1 hkv.2 hsub hm
    exact ih (lruInsert n kv.1 kv.2 c)
      (fun x hx => hms x (List.mem_cons_of_mem _ hx)) hnd' hsub'

/-- C6: a successful `get` promotes the fetched entry to
most-recently-used: afterwards, under any further inserts of hashes
other than the fetched hash `k` and a given untouched hash `k'`, if the
untouched entry is still present then so is the fetched one — the
fetched entry outlives every entry it was read ahead of. -/
theorem C6_get_refreshes_recency (n : Nat) (c : LruCache) (k k' : B256)
    (b : SubmitBlockRequest) (c' : LruCache)
    (hnd : (cacheKeys c).Nodup) (hk' : k' ∈ cacheKeys c) (hne : k' ≠ k)
    (hget : lruGet k c = (some b, c'))
    (ms : List (B256 × SubmitBlockRequest))
    (hms : ∀ kv ∈ ms, kv.1 ≠ k ∧ kv.1 ≠ k')
    (hsurv : k' ∈ cacheKeys (insertAll n ms c')) :
    k ∈ cacheKeys (insertAll n ms c') := by
  have hc' : cacheKeys c' = k :: (cacheKeys c).filter (fun x => x != k) := by
    unfold lruGet at hget
    cases hfind : c.find? (fun q => q.1 == k) with
    | none => rw [hfind] at hget; cases hget
    | some q =>
      rw [hfind] at hget
      have : c' = (k, q.2) :: c.filter (fun r => r.1 != k) := by
        have := congrArg Prod.snd hget
        simpa using this.symm
      rw [this, cacheKeys_cons, cacheKeys_filter]
  have hnd' : (cacheKeys c').Nodup := by
    rw [hc']
    refine List.nodup_cons.mpr ⟨?_, hnd.filter _⟩
    intro hm
    have := List.of_mem_filter hm
    simp at this
  have hsub' : k' ∈ cacheKeys c' → List.Sublist [k, k'] (cacheKeys c') := by
    intro _
    rw [hc']
    have hk'f : k' ∈ (cacheKeys c).filter (fun x => x != k) :=
      List.mem_filter.mpr ⟨hk', by simpa using hne⟩
    exact (List.singleton_sublist.mpr hk'f).cons₂ k
  have := insertAll_recency_invariant n k k' hne ms c' hms hnd' hsub'
  exact (this.2 hsurv).mem (by simp)

/-- Witness for C6: cache `[(7, _), (5, _)]` (hash 7 most recent); after
`get 5`, inserting the fresh hash 9 with capacity 3 keeps both 7 and 5,
and in particular 5 (the refreshed entry) is present while 7 is. -/
theorem C6_get_refreshes_recency_witness :
    5 ∈ cacheKeys (insertAll 3 [(9, ⟨⟨9⟩, 0⟩)]
      [(5, ⟨⟨5⟩, 0⟩), (7, ⟨⟨7⟩, 0⟩)]) :=
  C6_get_refreshes_recency 3 [(7, ⟨⟨7⟩, 0⟩), (5, ⟨⟨5⟩, 0⟩)] 5 7 ⟨⟨5⟩, 0⟩
    [(5, ⟨⟨5⟩, 0⟩), (7, ⟨⟨7⟩, 0⟩)] (by decide) (by decide) (by decide)
    (by decide) [(9, ⟨⟨9⟩, 0⟩)] (by decide) (by decide)

/-! ### Bid ingestion task (C8) -/

theorem maintain_block_cache_noop (n : Nat) :
    ∀ (items : List BidStreamItem) (c : LruCache),
      (∀ i ∈ items, ∀ blk : SubmitBlockRequest, i ≠ .ok blk) →
      maintain_block_cache n items c = c := by
  intro items
  induction items with
  | nil => intro c _; rfl
  | cons i rest ih =>
    intro c h
    have hstep : maintain_step n c i = c := by
      cases i with
      | ok blk => exact absurd rfl (h (.ok blk) (by simp) blk)
      | lagged lag => rfl
      | closed => rfl
    simp only [maintain_block_cache, List.foldl_cons, hstep]
    exact ih c (fun x hx => h x (List.mem_cons_of_mem _ hx))

theorem mem_cacheKeys_lruInsert_self (n : Nat) (k : B256)
    (v : SubmitBlockRequest) (c : LruCache) (hn : 0 < n) :
    k ∈ cacheKeys (lruInsert n k v c) := by
  rw [cacheKeys_lruInsert]
  cases n with
  | zero => exact absurd hn (by simp)
  | succ p =>
    rw [List.take_succ_cons]
    exact List.mem_cons_self _ _

/-- C8: the ingestion loop treats a lagged notification and a closed
stream as no-ops on the cache and keeps consuming (every match arm of
`maintain_block_cache` continues the loop): after any run of
lagged/closed events, a subsequently received bid is still inserted
under its block hash, and is present in the cache afterwards. -/
theorem C8_maintain_loop_survives_lag_and_close :
    (∀ (n lag : Nat) (c : LruCache), maintain_step n c (.lagged lag) = c)
    ∧ (∀ (n : Nat) (c : LruCache), maintain_step n c .closed = c)
    ∧ (∀ (n : Nat) (c : LruCache) (items : List BidStreamItem)
        (b : SubmitBlockRequest),
        (∀ i ∈ items, ∀ blk : SubmitBlockRequest, i ≠ .ok blk) →
        maintain_block_cache n (items ++ [.ok b]) c
          = lruInsert n b.bid_trace.block_hash b c
        ∧ (0 < n →
            b.bid_trace.block_hash
              ∈ cacheKeys (maintain_block_cache n (items ++ [.ok b]) c))) := by
  refine ⟨fun _ _ _ => rfl, fun _ _ => rfl, ?_⟩
  intro n c items b h
  have hrun : maintain_block_cache n (items ++ [.ok b]) c
      = lruInsert n b.bid_trace.block_hash b c := by
    simp only [maintain_block_cache, List.foldl_append]
    rw [show List.foldl (maintain_step n) c items
        = maintain_block_cache n items c from rfl,
      maintain_block_cache_noop n items c h]
    rfl
  refine ⟨hrun, fun hn => ?_⟩
  rw [hrun]
  exact mem_cacheKeys_lruInsert_self n _ b c hn

/-- Witness for C8: with capacity 1000, a lag of 3 then a closed-stream
signal then a received bid with hash 42 still results in hash 42
entering the empty cache. -/
theorem C8_maintain_loop_survives_lag_and_close_witness :
    maintain_step 1000 [] (.lagged 3) = ([] : LruCache)
    ∧ maintain_step 1000 [] .closed = ([] : LruCache)
    ∧ maintain_block_cache 1000 [.lagged 3, .closed, .ok ⟨⟨42⟩, 0⟩] []
        = lruInsert 1000 42 ⟨⟨42⟩, 0⟩ []
    ∧ 42 ∈ cacheKeys (maintain_block_cache 1000 [.lagged 3, .closed, .ok ⟨⟨42⟩, 0⟩] []) := by
  have h := C8_maintain_loop_survives_lag_and_close
  have h3 := h.2.2 1000 [] [.lagged 3, .closed] ⟨⟨42⟩, 0⟩
    (by intro i hi blk; simp at hi; rcases hi with h | h <;> subst h <;> simp)
  exact ⟨h.1 1000 3 [], h.2.1 1000 [], h3.1, h3.2 (by decide)⟩

/-! ### Test fixtures used by witnesses and counterexamples -/

/-- A bid with block hash 42. -/
def testBid : SubmitBlockRequest := ⟨⟨42⟩, 0⟩

/-- A request for block hash 42 signed by relay pubkey 7. -/
def testReq : SignedGetPayloadV3 := ⟨⟨0, 7, 42⟩, 0⟩

/-- A concrete environment whose ssz decoder yields `testReq`, whose
verifier accepts, and whose codecs are total on the happy path. -/
def testEnv : Env :=
  { parse_json := fun _ => none
    parse_ssz := fun _ => some testReq
    verify_signed_relay_request := fun _ _ => true
    to_json_vec := fun _ => some [1]
    as_ssz_bytes := fun _ => [2]
    now_after_ts := fun _ => false }

/-- A concrete environment whose json decoder yields `testReq` but whose
json serializer fails. -/
def testEnvJson : Env :=
  { parse_json := fun _ => some testReq
    parse_ssz := fun _ => none
    verify_signed_relay_request := fun _ _ => true
    to_json_vec := fun _ => none
    as_ssz_bytes := fun _ => [2]
    now_after_ts := fun _ => true }

/-- A handler authorizing pubkey 7, with the bid for hash 42 cached. -/
def testHandler : Handler := ⟨0, [7], [(42, testBid)]⟩

/-! ### C7: cache capacity at server start -/

/-- C7 counterexample: the capacity of the cache built by `spawn_server`
is not an externally supplied startup parameter — no choice of the
parameters `spawn_server` actually takes (domain, authorized relay
pubkeys; address and bid stream do not reach the cache constructor)
yields any capacity other than the hardcoded constant. -/
theorem C7_capacity_not_configurable :
    ¬ ∃ (d d' : B256) (pks pks' : List BlsPublicKey),
      (spawn_server d pks).cache_capacity ≠ (spawn_server d' pks').cache_capacity := by
  rintro ⟨d, d', pks, pks', hne⟩
  exact hne rfl

/-- C7 amended: the cache created by `spawn_server` always has the fixed
capacity `OPTIMISTIC_V3_CACHE_SIZE_DEFAULT = 1000`; `spawn_server` has
no capacity parameter, and the cache starts empty. -/
theorem C7_capacity_is_fixed_default (d : B256) (pks : List BlsPublicKey) :
    (spawn_server d pks).cache_capacity = OPTIMISTIC_V3_CACHE_SIZE_DEFAULT
    ∧ (spawn_server d pks).cache_capacity = 1000
    ∧ (spawn_server d pks).handler.blocks = [] :=
  ⟨rfl, rfl, rfl⟩

/-! ### C4: unsupported content type -/

/-- C4: a request whose `Content-Type` is neither `application/json` nor
`application/octet-stream` is answered with 400 and increments the
bad-request counter, with the cache untouched; the environment `env`
(in particular both body decoders) is universally quantified and absent
from the right-hand side, so the body is never parsed. -/
theorem C4_unsupported_content_type_rejected (env env' : Env) (h : Handler)
    (ct : String) (bytes : List Nat) (m : Metrics)
    (h1 : ct ≠ "application/json") (h2 : ct ≠ "application/octet-stream") :
    get_payload_v3 env h ct bytes m
      = (.error .BAD_REQUEST, h.blocks,
          { m with bad_requests_total := m.bad_requests_total + 1 })
    ∧ get_payload_v3 env' h ct bytes m = get_payload_v3 env h ct bytes m := by
  constructor
  · simp [get_payload_v3, h1, h2]
  · simp [get_payload_v3, h1, h2]

/-- Witness for C4: `Content-Type: text/plain` is rejected with 400,
identically under two environments with different body decoders. -/
theorem C4_unsupported_content_type_rejected_witness :
    (get_payload_v3 testEnv testHandler "text/plain" [] Metrics.zero
      = (.error .BAD_REQUEST, testHandler.blocks,
          { Metrics.zero with bad_requests_total := 1 }))
    ∧ get_payload_v3 testEnvJson testHandler "text/plain" [] Metrics.zero
      = get_payload_v3 testEnv testHandler "text/plain" [] Metrics.zero :=
  C4_unsupported_content_type_rejected testEnv testEnvJson testHandler
    "text/plain" [] Metrics.zero (by decide) (by decide)

/-! ### C10: error responses leave the cache unchanged -/

theorem lruGet_miss_eq (k : B256) (c c' : LruCache)
    (h : lruGet k c = (none, c')) : c' = c := by
  unfold lruGet at h
  cases hf : c.find? (fun q => q.1 == k) with
  | none =>
    rw [hf] at h
    injection h with _ h2
    exact h2.symm
  | some q =>
    rw [hf] at h
    injection h with h1 _
    exact Option.noConfusion h1

theorem lruGet_of_fst_none (k : B256) (c : LruCache)
    (h : (lruGet k c).1 = none) : lruGet k c = (none, c) := by
  unfold lruGet at h ⊢
  cases hf : c.find? (fun q => q.1 == k) with
  | none => rfl
  | some q => rw [hf] at h; exact Option.noConfusion h

/-! ### Branch characterizations of the request handler -/

theorem get_payload_v3_json (env : Env) (h : Handler) (bytes : List Nat)
    (m : Metrics) (req : SignedGetPayloadV3)
    (hp : env.parse_json bytes = some req) :
    get_payload_v3 env h "application/json" bytes m
      = handle_request env h true req m := by
  simp [get_payload_v3, hp]

theorem get_payload_v3_ssz (env : Env) (h : Handler) (bytes : List Nat)
    (m : Metrics) (req : SignedGetPayloadV3)
    (hp : env.parse_ssz bytes = some req) :
    get_payload_v3 env h "application/octet-stream" bytes m
      = handle_request env h false req m := by
  simp [get_payload_v3, hp]

theorem handle_request_unknown_pubkey (env : Env) (h : Handler)
    (is_json : Bool) (req : SignedGetPayloadV3) (m : Metrics)
    (hpk : req.message.relay_public_key ∉ h.relay_pubkeys) :
    handle_request env h is_json req m
      = (.error .UNAUTHORIZED, h.blocks,
          { m with
            relay_request_latency_obs := m.relay_request_latency_obs
              + (if env.now_after_ts req.message.request_ts then 1 else 0)
            unknown_pubkey_total := m.unknown_pubkey_total + 1 }) := by
  obtain ⟨m1, m2, m3, m4, m5, m6, m7⟩ := m
  unfold handle_request
  cases hnow : env.now_after_ts req.message.request_ts <;> simp [hpk, hnow]

theorem handle_request_invalid_signature (env : Env) (h : Handler)
    (is_json : Bool) (req : SignedGetPayloadV3) (m : Metrics)
    (hpk : req.message.relay_public_key ∈ h.relay_pubkeys)
    (hv : env.verify_signed_relay_request req h.domain = false) :
    handle_request env h is_json req m
      = (.error .UNAUTHORIZED, h.blocks,
          { m with
            relay_request_latency_obs := m.relay_request_latency_obs
              + (if env.now_after_ts req.message.request_ts then 1 else 0)
            invalid_signature_total := m.invalid_signature_total + 1 }) := by
  obtain ⟨m1, m2, m3, m4, m5, m6, m7⟩ := m
  unfold handle_request
  cases hnow : env.now_after_ts req.message.request_ts <;> simp [hpk, hv, hnow]

theorem handle_request_not_found (env : Env) (h : Handler)
    (is_json : Bool) (req : SignedGetPayloadV3) (m : Metrics)
    (hpk : req.message.relay_public_key ∈ h.relay_pubkeys)
    (hv : env.verify_signed_relay_request req h.domain = true)
    (hmiss : lruGet req.message.block_hash h.blocks = (none, h.blocks)) :
    handle_request env h is_json req m
      = (.error .NOT_FOUND, h.blocks,
          { m with
            relay_request_latency_obs := m.relay_request_latency_obs
              + (if env.now_after_ts req.message.request_ts then 1 else 0)
            block_not_found_total := m.block_not_found_total + 1 }) := by
  obtain ⟨m1, m2, m3, m4, m5, m6, m7⟩ := m
  unfold handle_request
  cases hnow : env.now_after_ts req.message.request_ts <;>
    simp [hpk, hv, hmiss, hnow]

theorem handle_request_hit_json (env : Env) (h : Handler)
    (req : SignedGetPayloadV3) (m : Metrics) (b : SubmitBlockRequest)
    (c' : LruCache) (body : List Nat)
    (hpk : req.message.relay_public_key ∈ h.relay_pubkeys)
    (hv : env.verify_signed_relay_request req h.domain = true)
    (hget : lruGet req.message.block_hash h.blocks = (some b, c'))
    (henc : env.to_json_vec b = some body) :
    handle_request env h true req m
      = (.ok ⟨body, "application/json"⟩, c',
          { m with
            relay_request_latency_obs := m.relay_request_latency_obs
              + (if env.now_after_ts req.message.request_ts then 1 else 0) }) := by
  obtain ⟨m1, m2, m3, m4, m5, m6, m7⟩ := m
  unfold handle_request
  cases hnow : env.now_after_ts req.message.request_ts <;>
    simp [hpk, hv, hget, henc, hnow]

theorem handle_request_hit_json_encode_failure (env : Env) (h : Handler)
    (req : SignedGetPayloadV3) (m : Metrics) (b : SubmitBlockRequest)
    (c' : LruCache)
    (hpk : req.message.relay_public_key ∈ h.relay_pubkeys)
    (hv : env.verify_signed_relay_request req h.domain = true)
    (hget : lruGet req.message.block_hash h.blocks = (some b, c'))
    (henc : env.to_json_vec b = none) :
    handle_request env h true req m
      = (.error .INTERNAL_SERVER_ERROR, c',
          { m with
            relay_request_latency_obs := m.relay_request_latency_obs
              + (if env.now_after_ts req.message.request_ts then 1 else 0) }) := by
  obtain ⟨m1, m2, m3, m4, m5, m6, m7⟩ := m
  unfold handle_request
  cases hnow : env.now_after_ts req.message.request_ts <;>
    simp [hpk, hv, hget, henc, hnow]

theorem handle_request_hit_ssz (env : Env) (h : Handler)
    (req : SignedGetPayloadV3) (m : Metrics) (b : SubmitBlockRequest)
    (c' : LruCache)
    (hpk : req.message.relay_public_key ∈ h.relay_pubkeys)
    (hv : env.verify_signed_relay_request req h.domain = true)
    (hget : lruGet req.message.block_hash h.blocks = (some b, c')) :
    handle_request env h false req m
      = (.ok ⟨env.as_ssz_bytes b, "application/octet-stream"⟩, c',
          { m with
            relay_request_latency_obs := m.relay_request_latency_obs
              + (if env.now_after_ts req.message.request_ts then 1 else 0) }) := by
  obtain ⟨m1, m2, m3, m4, m5, m6, m7⟩ := m
  unfold handle_request
  cases hnow : env.now_after_ts req.message.request_ts <;>
    simp [hpk, hv, hget, hnow]

/-- Exhaustive branch analysis of `Handler::get_payload_v3`: every run
falls into exactly one of the six terminal shapes (bad request,
unknown pubkey, invalid signature, not found, success, json
serialization failure). -/
theorem get_payload_v3_cases (env : Env) (h : Handler) (ct : String)
    (bytes : List Nat) (m : Metrics) :
    (get_payload_v3 env h ct bytes m
        = (.error .BAD_REQUEST, h.blocks,
            { m with bad_requests_total := m.bad_requests_total + 1 }))
    ∨ (∃ req : SignedGetPayloadV3, get_payload_v3 env h ct bytes m
        = (.error .UNAUTHORIZED, h.blocks,
            { m with
              relay_request_latency_obs := m.relay_request_latency_obs
                + (if env.now_after_ts req.message.request_ts then 1 else 0)
              unknown_pubkey_total := m.unknown_pubkey_total + 1 }))
    ∨ (∃ req : SignedGetPayloadV3, get_payload_v3 env h ct bytes m
        = (.error .UNAUTHORIZED, h.blocks,
            { m with
              relay_request_latency_obs := m.relay_request_latency_obs
                + (if env.now_after_ts req.message.request_ts then 1 else 0)
              invalid_signature_total := m.invalid_signature_total + 1 }))
    ∨ (∃ req : SignedGetPayloadV3, get_payload_v3 env h ct bytes m
        = (.error .NOT_FOUND, h.blocks,
            { m with
              relay_request_latency_obs := m.relay_request_latency_obs
                + (if env.now_after_ts req.message.request_ts then 1 else 0)
              block_not_found_total := m.block_not_found_total + 1 }))
    ∨ (∃ (req : SignedGetPayloadV3) (r : Response) (c' : LruCache),
        get_payload_v3 env h ct bytes m
          = (.ok r, c',
              { m with
                relay_request_latency_obs := m.relay_request_latency_obs
                  + (if env.now_after_ts req.message.request_ts then 1 else 0) }))
    ∨ (ct = "application/json"
        ∧ ∃ (req : SignedGetPayloadV3) (c' : LruCache),
          get_payload_v3 env h ct bytes m
            = (.error .INTERNAL_SERVER_ERROR, c',
                { m with
                  relay_request_latency_obs := m.relay_request_latency_obs
                    + (if env.now_after_ts req.message.request_ts then 1 else 0) })) := by
  by_cases hj : ct = "application/json"
  · subst hj
    cases hp : env.parse_json bytes with
    | none =>
      left
      simp [get_payload_v3, hp]
    | some req =>
      have hg := get_payload_v3_json env h bytes m req hp
      by_cases hpk : req.message.relay_public_key ∈ h.relay_pubkeys
      · cases hv : env.verify_signed_relay_request req h.domain with
        | false =>
          right; right; left
          exact ⟨req, by
            rw [hg, handle_request_invalid_signature env h true req m hpk hv]⟩
        | true =>
          cases hget : lruGet req.message.block_hash h.blocks with
          | mk o c2 =>
            cases o with
            | none =>
              have hc2 : c2 = h.blocks := lruGet_miss_eq _ _ _ hget
              subst hc2
              right; right; right; left
              exact ⟨req, by
                rw [hg, handle_request_not_found env h true req m hpk hv hget]⟩
            | some b =>
              cases henc : env.to_json_vec b with
              | some body =>
                right; right; right; right; left
                exact ⟨req, ⟨body, "application/json"⟩, c2, by
                  rw [hg,
                    handle_request_hit_json env h req m b c2 body hpk hv hget henc]⟩
              | none =>
                right; right; right; right; right
                exact ⟨rfl, req, c2, by
                  rw [hg, handle_request_hit_json_encode_failure env h req m b c2
                    hpk hv hget henc]⟩
      · right; left
        exact ⟨req, by rw [hg, handle_request_unknown_pubkey env h true req m hpk]⟩
  · by_cases hs : ct = "application/octet-stream"
    · subst hs
      cases hp : env.parse_ssz bytes with
      | none =>
        left
        simp [get_payload_v3, hp]
      | some req =>
        have hg := get_payload_v3_ssz env h bytes m req hp
        by_cases hpk : req.message.relay_public_key ∈ h.relay_pubkeys
        · cases hv : env.verify_signed_relay_request req h.domain with
          | false =>
            right; right; left
            exact ⟨req, by
              rw [hg, handle_request_invalid_signature env h false req m hpk hv]⟩
          | true =>
            cases hget : lruGet req.message.block_hash h.blocks with
            | mk o c2 =>
              cases o with
              | none =>
                have hc2 : c2 = h.blocks := lruGet_miss_eq _ _ _ hget
                subst hc2
                right; right; right; left
                exact ⟨req, by
                  rw [hg, handle_request_not_found env h false req m hpk hv hget]⟩
              | some b =>
                right; right; right; right; left
                exact ⟨req, ⟨env.as_ssz_bytes b, "application/octet-stream"⟩, c2, by
                  rw [hg, handle_request_hit_ssz env h req m b c2 hpk hv hget]⟩
        · right; left
          exact ⟨req, by
            rw [hg, handle_request_unknown_pubkey env h false req m hpk]⟩
    · left
      simp [get_payload_v3, hj, hs]

/-- C10: a request answered 400, 401 or 404 leaves the bid cache exactly
as it was — same entries, same payloads, same recency order (the cache
component of the result equals the pre-state cache). -/
theorem C10_error_outcomes_leave_cache_unchanged (env : Env) (h : Handler)
    (ct : String) (bytes : List Nat) (m : Metrics)
    (res : Except StatusCode Response) (c' : LruCache) (m' : Metrics)
    (hrun : get_payload_v3 env h ct bytes m = (res, c', m'))
    (herr : res = .error .BAD_REQUEST ∨ res = .error .UNAUTHORIZED
        ∨ res = .error .NOT_FOUND) :
    c' = h.blocks := by
  rcases get_payload_v3_cases env h ct bytes m with
    hc | ⟨req, hc⟩ | ⟨req, hc⟩ | ⟨req, hc⟩ | ⟨req, r, c2, hc⟩ | ⟨hct, req, c2, hc⟩ <;>
    rw [hrun] at hc
  · exact congrArg (fun t => t.2.1) hc
  · exact congrArg (fun t => t.2.1) hc
  · exact congrArg (fun t => t.2.1) hc
  · exact congrArg (fun t => t.2.1) hc
  · have h1 : res = Except.ok r := congrArg Prod.fst hc
    rw [h1] at herr
    simp at herr
  · have h1 : res = Except.error StatusCode.INTERNAL_SERVER_ERROR :=
      congrArg Prod.fst hc
    rw [h1] at herr
    simp at herr

/-- Witness for C10: a concrete unauthorized request (unknown pubkey)
returns the cache unchanged. -/
theorem C10_error_outcomes_leave_cache_unchanged_witness :
    [(42, testBid)] = (Handler.mk 0 [] [(42, testBid)]).blocks :=
  C10_error_outcomes_leave_cache_unchanged testEnv ⟨0, [], [(42, testBid)]⟩
    "application/octet-stream" [] Metrics.zero
    (.error .UNAUTHORIZED) [(42, testBid)]
    { Metrics.zero with unknown_pubkey_total := 1 }
    rfl (Or.inr (Or.inl rfl))

/-- Bridge between `get_payload_v3_metered` and a characterization of
the inner `get_payload_v3` run. -/
theorem get_payload_v3_metered_eq (env : Env) (h : Handler) (ct : String)
    (bytes : List Nat) (m : Metrics)
    (X : Except StatusCode Response × LruCache × Metrics)
    (hc : get_payload_v3 env h ct bytes
      { m with requests_total := m.requests_total + 1 } = X) :
    get_payload_v3_metered env h ct bytes m
      = (X.1, X.2.1,
          { X.2.2 with
            response_latency_obs := X.2.2.response_latency_obs + 1 }) := by
  simp only [get_payload_v3_metered]
  rw [hc]

/-- C2 (amended): every invocation of the metered handler increments the
total-requests counter and observes exactly one response-latency sample,
regardless of outcome; each of the 400, 401 and 404 outcomes increments
exactly one outcome counter (for 401, exactly one of unknown-pubkey and
invalid-signature); the 200 and 500 outcomes increment no outcome
counter at all. -/
theorem C2_metered_metrics_accounting (env : Env) (h : Handler)
    (ct : String) (bytes : List Nat) (m : Metrics)
    (res : Except StatusCode Response) (c' : LruCache) (m' : Metrics)
    (hrun : get_payload_v3_metered env h ct bytes m = (res, c', m')) :
    m'.requests_total = m.requests_total + 1
    ∧ m'.response_latency_obs = m.response_latency_obs + 1
    ∧ (res = .error .BAD_REQUEST →
        m'.bad_requests_total = m.bad_requests_total + 1
        ∧ m'.unknown_pubkey_total = m.unknown_pubkey_total
        ∧ m'.invalid_signature_total = m.invalid_signature_total
        ∧ m'.block_not_found_total = m.block_not_found_total)
    ∧ (res = .error .UNAUTHORIZED →
        m'.bad_requests_total = m.bad_requests_total
        ∧ m'.block_not_found_total = m.block_not_found_total
        ∧ ((m'.unknown_pubkey_total = m.unknown_pubkey_total + 1
            ∧ m'.invalid_signature_total = m.invalid_signature_total)
          ∨ (m'.unknown_pubkey_total = m.unknown_pubkey_total
            ∧ m'.invalid_signature_total = m.invalid_signature_total + 1)))
    ∧ (res = .error .NOT_FOUND →
        m'.block_not_found_total = m.block_not_found_total + 1
        ∧ m'.bad_requests_total = m.bad_requests_total
        ∧ m'.unknown_pubkey_total = m.unknown_pubkey_total
        ∧ m'.invalid_signature_total = m.invalid_signature_total)
    ∧ (res = .error .INTERNAL_SERVER_ERROR →
        m'.bad_requests_total = m.bad_requests_total
        ∧ m'.unknown_pubkey_total = m.unknown_pubkey_total
        ∧ m'.invalid_signature_total = m.invalid_signature_total
        ∧ m'.block_not_found_total = m.block_not_found_total)
    ∧ (∀ r : Response, res = .ok r →
        m'.bad_requests_total = m.bad_requests_total
        ∧ m'.unknown_pubkey_total = m.unknown_pubkey_total
        ∧ m'.invalid_signature_total = m.invalid_signature_total
        ∧ m'.block_not_found_total = m.block_not_found_total) := by
  rcases get_payload_v3_cases env h ct bytes
      { m with requests_total := m.requests_total + 1 } with
    hc | ⟨req, hc⟩ | ⟨req, hc⟩ | ⟨req, hc⟩ | ⟨req, r, c2, hc⟩ | ⟨hct, req, c2, hc⟩ <;>
    have hm := get_payload_v3_metered_eq env h ct bytes m _ hc <;>
    rw [hrun] at hm <;>
    have hreq : m'.requests_total = m.requests_total + 1 :=
      congrArg (fun t => t.2.2.requests_total) hm <;>
    have hresp : m'.response_latency_obs = m.response_latency_obs + 1 :=
      congrArg (fun t => t.2.2.response_latency_obs) hm
  · have hres : res = Except.error StatusCode.BAD_REQUEST := congrArg Prod.fst hm
    have hb : m'.bad_requests_total = m.bad_requests_total + 1 :=
      congrArg (fun t => t.2.2.bad_requests_total) hm
    have hu : m'.unknown_pubkey_total = m.unknown_pubkey_total :=
      congrArg (fun t => t.2.2.unknown_pubkey_total) hm
    have hi : m'.invalid_signature_total = m.invalid_signature_total :=
      congrArg (fun t => t.2.2.invalid_signature_total) hm
    have hn : m'.block_not_found_total = m.block_not_found_total :=
      congrArg (fun t => t.2.2.block_not_found_total) hm
    exact ⟨hreq, hresp, fun _ => ⟨hb, hu, hi, hn⟩,
      fun hx => by rw [hres] at hx; simp at hx,
      fun hx => by rw [hres] at hx; simp at hx,
      fun hx => by rw [hres] at hx; simp at hx,
      fun r₂ hr => by rw [hres] at hr; simp at hr⟩
  · have hres : res = Except.error StatusCode.UNAUTHORIZED := congrArg Prod.fst hm
    have hb : m'.bad_requests_total = m.bad_requests_total :=
      congrArg (fun t => t.2.2.bad_requests_total) hm
    have hu : m'.unknown_pubkey_total = m.unknown_pubkey_total + 1 :=
      congrArg (fun t => t.2.2.unknown_pubkey_total) hm
    have hi : m'.invalid_signature_total = m.invalid_signature_total :=
      congrArg (fun t => t.2.2.invalid_signature_total) hm
    have hn : m'.block_not_found_total = m.block_not_found_total :=
      congrArg (fun t => t.2.2.block_not_found_total) hm
    exact ⟨hreq, hresp,
      fun hx => by rw [hres] at hx; simp at hx,
      fun _ => ⟨hb, hn, Or.inl ⟨hu, hi⟩⟩,
      fun hx => by rw [hres] at hx; simp at hx,
      fun hx => by rw [hres] at hx; simp at hx,
      fun r₂ hr => by rw [hres] at hr; simp at hr⟩
  · have hres : res = Except.error StatusCode.UNAUTHORIZED := congrArg Prod.fst hm
    have hb : m'.bad_requests_total = m.bad_requests_total :=
      congrArg (fun t => t.2.2.bad_requests_total) hm
    have hu : m'.unknown_pubkey_total = m.unknown_pubkey_total :=
      congrArg (fun t => t.2.2.unknown_pubkey_total) hm
    have hi : m'.invalid_signature_total = m.invalid_signature_total + 1 :=
      congrArg (fun t => t.2.2.invalid_signature_total) hm
    have hn : m'.block_not_found_total = m.block_not_found_total :=
      congrArg (fun t => t.2.2.block_not_found_total) hm
    exact ⟨hreq, hresp,
      fun hx => by rw [hres] at hx; simp at hx,
      fun _ => ⟨hb, hn, Or.inr ⟨hu, hi⟩⟩,
      fun hx => by rw [hres] at hx; simp at hx,
      fun hx => by rw [hres] at hx; simp at hx,
      fun r₂ hr => by rw [hres] at hr; simp at hr⟩
  · have hres : res = Except.error StatusCode.NOT_FOUND := congrArg Prod.fst hm
    have hb : m'.bad_requests_total = m.bad_requests_total :=
      congrArg (fun t => t.2.2.bad_requests_total) hm
    have hu : m'.unknown_pubkey_total = m.unknown_pubkey_total :=
      congrArg (fun t => t.2.2.unknown_pubkey_total) hm
    have hi : m'.invalid_signature_total = m.invalid_signature_total :=
      congrArg (fun t => t.2.2.invalid_signature_total) hm
    have hn : m'.block_not_found_total = m.block_not_found_total + 1 :=
      congrArg (fun t => t.2.2.block_not_found_total) hm
    exact ⟨hreq, hresp,
      fun hx => by rw [hres] at hx; simp at hx,
      fun hx => by rw [hres] at hx; simp at hx,
      fun _ => ⟨hn, hb, hu, hi⟩,
      fun hx => by rw [hres] at hx; simp at hx,
      fun r₂ hr => by rw [hres] at hr; simp at hr⟩
  · have hres : res = Except.ok r := congrArg Prod.fst hm
    have hb : m'.bad_requests_total = m.bad_requests_total :=
      congrArg (fun t => t.2.2.bad_requests_total) hm
    have hu : m'.unknown_pubkey_total = m.unknown_pubkey_total :=
      congrArg (fun t => t.2.2.unknown_pubkey_total) hm
    have hi : m'.invalid_signature_total = m.invalid_signature_total :=
      congrArg (fun t => t.2.2.invalid_signature_total) hm
    have hn : m'.block_not_found_total = m.block_not_found_total :=
      congrArg (fun t => t.2.2.block_not_found_total) hm
    exact ⟨hreq, hresp,
      fun hx => by rw [hres] at hx; simp at hx,
      fun hx => by rw [hres] at hx; simp at hx,
      fun hx => by rw [hres] at hx; simp at hx,
      fun hx => by rw [hres] at hx; simp at hx,
      fun r₂ _ => ⟨hb, hu, hi, hn⟩⟩
  · have hres : res = Except.error StatusCode.INTERNAL_SERVER_ERROR :=
      congrArg Prod.fst hm
    have hb : m'.bad_requests_total = m.bad_requests_total :=
      congrArg (fun t => t.2.2.bad_requests_total) hm
    have hu : m'.unknown_pubkey_total = m.unknown_pubkey_total :=
      congrArg (fun t => t.2.2.unknown_pubkey_total) hm
    have hi : m'.invalid_signature_total = m.invalid_signature_total :=
      congrArg (fun t => t.2.2.invalid_signature_total) hm
    have hn : m'.block_not_found_total = m.block_not_found_total :=
      congrArg (fun t => t.2.2.block_not_found_total) hm
    exact ⟨hreq, hresp,
      fun hx => by rw [hres] at hx; simp at hx,
      fun hx => by rw [hres] at hx; simp at hx,
      fun hx => by rw [hres] at hx; simp at hx,
      fun _ => ⟨hb, hu, hi, hn⟩,
      fun r₂ hr => by rw [hres] at hr; simp at hr⟩

/-- Witness for C2 (amended): a concrete successful run increments the
total-requests counter and leaves the bad-request counter unchanged. -/
theorem C2_metered_metrics_accounting_witness :
    (⟨1, 0, 1, 0, 0, 0, 0⟩ : Metrics).requests_total = Metrics.zero.requests_total + 1
    ∧ (⟨1, 0, 1, 0, 0, 0, 0⟩ : Metrics).bad_requests_total
        = Metrics.zero.bad_requests_total :=
  ⟨(C2_metered_metrics_accounting testEnv testHandler "application/octet-stream" []
      Metrics.zero (.ok ⟨[2], "application/octet-stream"⟩) [(42, testBid)]
      ⟨1, 0, 1, 0, 0, 0, 0⟩ rfl).1,
   ((C2_metered_metrics_accounting testEnv testHandler "application/octet-stream" []
      Metrics.zero (.ok ⟨[2], "application/octet-stream"⟩) [(42, testBid)]
      ⟨1, 0, 1, 0, 0, 0, 0⟩ rfl).2.2.2.2.2.2 ⟨[2], "application/octet-stream"⟩ rfl).1⟩

/-- C2 counterexample: a concrete request that succeeds (HTTP 200)
increments no outcome counter — the four outcome counters
(bad-request, unknown-pubkey, invalid-signature, block-not-found) all
remain zero, refuting "every terminal branch (200, 400, 401, 404, 500)
increments exactly one outcome counter". -/
theorem C2_success_branch_increments_no_outcome_counter :
    get_payload_v3_metered testEnv testHandler "application/octet-stream" []
        Metrics.zero
      = (.ok ⟨[2], "application/octet-stream"⟩, [(42, testBid)],
          ⟨1, 0, 1, 0, 0, 0, 0⟩) := by
  rfl

/-- C3: a decoded request whose relay public key is not in the
authorized set is answered 401 with the unknown-pubkey counter
incremented, the cache untouched; the result is the same for every
signature verifier `f` (the verifier is never invoked) and for every
cache content `c` (no cache lookup is attempted). -/
theorem C3_unknown_pubkey_rejected_before_verification (env : Env)
    (h : Handler) (ct : String) (bytes : List Nat) (m : Metrics)
    (req : SignedGetPayloadV3) (f : SignedGetPayloadV3 → B256 → Bool)
    (c : LruCache)
    (hdec : (ct = "application/json" ∧ env.parse_json bytes = some req)
        ∨ (ct = "application/octet-stream" ∧ env.parse_ssz bytes = some req))
    (hpk : req.message.relay_public_key ∉ h.relay_pubkeys) :
    get_payload_v3 env h ct bytes m
      = (.error .UNAUTHORIZED, h.blocks,
          { m with
            relay_request_latency_obs := m.relay_request_latency_obs
              + (if env.now_after_ts req.message.request_ts then 1 else 0)
            unknown_pubkey_total := m.unknown_pubkey_total + 1 })
    ∧ get_payload_v3 { env with verify_signed_relay_request := f } h ct bytes m
      = get_payload_v3 env h ct bytes m
    ∧ get_payload_v3 env { h with blocks := c } ct bytes m
      = (.error .UNAUTHORIZED, c,
          { m with
            relay_request_latency_obs := m.relay_request_latency_obs
              + (if env.now_after_ts req.message.request_ts then 1 else 0)
            unknown_pubkey_total := m.unknown_pubkey_total + 1 }) := by
  rcases hdec with ⟨hct, hp⟩ | ⟨hct, hp⟩ <;> subst hct
  · refine ⟨?_, ?_, ?_⟩
    · rw [get_payload_v3_json env h bytes m req hp,
        handle_request_unknown_pubkey env h true req m hpk]
    · rw [get_payload_v3_json { env with verify_signed_relay_request := f }
          h bytes m req (by simpa using hp),
        handle_request_unknown_pubkey { env with verify_signed_relay_request := f }
          h true req m hpk,
        get_payload_v3_json env h bytes m req hp,
        handle_request_unknown_pubkey env h true req m hpk]
    · rw [get_payload_v3_json env { h with blocks := c } bytes m req hp,
        handle_request_unknown_pubkey env { h with blocks := c } true req m
          (by simpa using hpk)]
  · refine ⟨?_, ?_, ?_⟩
    · rw [get_payload_v3_ssz env h bytes m req hp,
        handle_request_unknown_pubkey env h false req m hpk]
    · rw [get_payload_v3_ssz { env with verify_signed_relay_request := f }
          h bytes m req (by simpa using hp),
        handle_request_unknown_pubkey { env with verify_signed_relay_request := f }
          h false req m hpk,
        get_payload_v3_ssz env h bytes m req hp,
        handle_request_unknown_pubkey env h false req m hpk]
    · rw [get_payload_v3_ssz env { h with blocks := c } bytes m req hp,
        handle_request_unknown_pubkey env { h with blocks := c } false req m
          (by simpa using hpk)]

/-- Witness for C3: a concrete ssz request from an unknown pubkey is
answered 401 with the unknown-pubkey counter at 1 and the cache
returned unchanged. -/
theorem C3_unknown_pubkey_rejected_before_verification_witness :
    get_payload_v3 testEnv ⟨0, [], [(42, testBid)]⟩ "application/octet-stream"
        [] Metrics.zero
      = (.error .UNAUTHORIZED, [(42, testBid)],
          { Metrics.zero with unknown_pubkey_total := 1 }) :=
  (C3_unknown_pubkey_rejected_before_verification testEnv ⟨0, [], [(42, testBid)]⟩
    "application/octet-stream" [] Metrics.zero testReq (fun _ _ => false) []
    (Or.inr ⟨rfl, rfl⟩) (by simp)).1

/-- C5: a request that passes decoding, both authorization checks and
the cache lookup is answered 200 with the stored bid serialized in the
encoding the request used, and the response `Content-Type` names that
encoding. -/
theorem C5_success_echoes_request_encoding (env : Env) (h : Handler)
    (bytes : List Nat) (m : Metrics) (req : SignedGetPayloadV3)
    (b : SubmitBlockRequest) (c' : LruCache) (body : List Nat)
    (hpk : req.message.relay_public_key ∈ h.relay_pubkeys)
    (hv : env.verify_signed_relay_request req h.domain = true)
    (hget : lruGet req.message.block_hash h.blocks = (some b, c')) :
    (env.parse_json bytes = some req → env.to_json_vec b = some body →
      get_payload_v3 env h "application/json" bytes m
        = (.ok ⟨body, "application/json"⟩, c',
            { m with
              relay_request_latency_obs := m.relay_request_latency_obs
                + (if env.now_after_ts req.message.request_ts then 1 else 0) }))
    ∧ (env.parse_ssz bytes = some req →
      get_payload_v3 env h "application/octet-stream" bytes m
        = (.ok ⟨env.as_ssz_bytes b, "application/octet-stream"⟩, c',
            { m with
              relay_request_latency_obs := m.relay_request_latency_obs
                + (if env.now_after_ts req.message.request_ts then 1 else 0) })) := by
  constructor
  · intro hp henc
    rw [get_payload_v3_json env h bytes m req hp,
      handle_request_hit_json env h req m b c' body hpk hv hget henc]
  · intro hp
    rw [get_payload_v3_ssz env h bytes m req hp,
      handle_request_hit_ssz env h req m b c' hpk hv hget]

/-- Witness for C5: a concrete authorized ssz request for the cached
hash 42 is answered 200 with the ssz serialization of the stored bid and
`Content-Type: application/octet-stream`. -/
theorem C5_success_echoes_request_encoding_witness :
    get_payload_v3 testEnv testHandler "application/octet-stream" [] Metrics.zero
      = (.ok ⟨[2], "application/octet-stream"⟩, [(42, testBid)], Metrics.zero) :=
  (C5_success_echoes_request_encoding testEnv testHandler [] Metrics.zero testReq
    testBid [(42, testBid)] [1] (by decide) rfl rfl).2 rfl

/-- C9: ssz response serialization is total, so a request using the
binary encoding can never be answered 500; a 500 outcome implies the
request used the json encoding. -/
theorem C9_internal_error_only_for_json (env : Env) (h : Handler)
    (ct : String) (bytes : List Nat) (m : Metrics) :
    (get_payload_v3 env h "application/octet-stream" bytes m).1
        ≠ Except.error StatusCode.INTERNAL_SERVER_ERROR
    ∧ ((get_payload_v3 env h ct bytes m).1
          = Except.error StatusCode.INTERNAL_SERVER_ERROR →
        ct = "application/json") := by
  have key : ∀ ct' : String,
      (get_payload_v3 env h ct' bytes m).1
          = Except.error StatusCode.INTERNAL_SERVER_ERROR →
      ct' = "application/json" := by
    intro ct' h500
    rcases get_payload_v3_cases env h ct' bytes m with
      hc | ⟨req, hc⟩ | ⟨req, hc⟩ | ⟨req, hc⟩ | ⟨req, r, c2, hc⟩ | ⟨hct, req, c2, hc⟩ <;>
      rw [hc] at h500
    all_goals first
      | exact hct
      | exact absurd h500 (by simp)
  refine ⟨?_, key ct⟩
  intro h500
  exact absurd (key "application/octet-stream" h500) (by decide)

/-- Witness for C9: the concrete binary request of the fixtures is not
answered 500, while a concrete json request whose serializer fails is —
and the implication then forces its content type to be json. -/
theorem C9_internal_error_only_for_json_witness :
    (get_payload_v3 testEnv testHandler "application/octet-stream" []
        Metrics.zero).1 ≠ Except.error StatusCode.INTERNAL_SERVER_ERROR
    ∧ "application/json" = "application/json" :=
  ⟨(C9_internal_error_only_for_json testEnv testHandler "x" [] Metrics.zero).1,
   (C9_internal_error_only_for_json testEnvJson testHandler "application/json"
      [] Metrics.zero).2 rfl⟩

end OptimisticV3
